import Mathlib

/-
  Verification of the stock screener in bot_saham.py.

  The screener (one Python file) is embedded shallowly, with exact rational
  arithmetic (ℚ) in place of floats and `Option ℚ` in place of NaN cells:
  a pandas cell that is NaN is `none`, and every `pd.notna` / `pd.isna`
  guard of the source becomes a `match` / `Option` test.  Fallible steps
  (the history downloads, the benchmark fetch) are modelled as `Option`
  inputs.  The hand-rolled (non-pandas_ta) indicator branch of the source
  is the one embedded, as it is the complete self-contained implementation.

  The Bollinger band columns (BB_UPPER / BB_LOWER / BB_WIDTH) are the one
  spot the source computes a square root (a rolling standard deviation),
  which has no exact rational value; those per-row values are therefore
  taken as unconstrained inputs of the scoring step (structure BBInputs),
  and every theorem below quantifies over them, so each theorem holds in
  particular at the true values.
-/

set_option maxHeartbeats 1000000

namespace Screener

/-- Market regime, the three string values returned by get_market_regime. -/
inductive Regime
  | BULLISH
  | NEUTRAL
  | BEARISH
deriving DecidableEq

/-- MIN_PRICE = 100, the minimum share price of the liquidity filter. -/
def MIN_PRICE : ℚ := 100

/-- MIN_VOLUME_AVG = 100_000, the minimum 20-day average volume. -/
def MIN_VOLUME_AVG : ℚ := 100000

/-- SCORE_THRESHOLDS, the per-regime minimum qualifying score dictionary. -/
def scoreThreshold : Regime → ℤ
  | .BULLISH => 5
  | .NEUTRAL => 6
  | .BEARISH => 8

/-- The regime decision of get_market_regime, lines 163-168 of the source:
BULLISH when close > sma50 and close > sma200 and sma50 > sma200, else
BEARISH when close < sma50 and close < sma200, else NEUTRAL. -/
def classifyRegime (close sma50 sma200 : ℚ) : Regime :=
  if sma50 < close ∧ sma200 < close ∧ sma200 < sma50 then .BULLISH
  else if close < sma50 ∧ close < sma200 then .BEARISH
  else .NEUTRAL

/-- Trailing mean of the last w entries, `rolling(w).mean().iloc[-1]`. -/
def lastWindowMean (w : ℕ) (xs : List ℚ) : ℚ :=
  ((xs.drop (xs.length - w)).sum) / (w : ℚ)

/-- get_market_regime: the benchmark close history arrives as
`Option (List ℚ)`, `none` standing for a failed download or any exception
raised while processing (the `except` arm of the source).  An empty or
shorter-than-200-bar history falls back to NEUTRAL with a note, matching
lines 141-143; the `except` arm (lines 178-180) likewise returns NEUTRAL
with an error note.  The human-readable snapshot string of the source
interpolates numbers; here it is a fixed note, as no claim reads its text. -/
def getMarketRegime (fetched : Option (List ℚ)) : Regime × String :=
  match fetched with
  | none => (.NEUTRAL, "Error deteksi market regime")
  | some closes =>
    if closes.length < 200 then (.NEUTRAL, "Data IHSG tidak tersedia")
    else
      let close := closes.getLast?.getD 0
      let sma50 := lastWindowMean 50 closes
      let sma200 := lastWindowMean 200 closes
      (classifyRegime close sma50 sma200, "IHSG snapshot")

/-- `ewm(alpha=a, adjust=False).mean()` unrolled from its second entry on:
y0 is the first input, and y_t = (1-a)*y_(t-1) + a*x_t afterwards. -/
def ewmGo (a y : ℚ) : List ℚ → List ℚ
  | [] => [y]
  | x :: xs => y :: ewmGo a ((1 - a) * y + a * x) xs

/-- `ewm(alpha=a, adjust=False).mean()` over a whole series. -/
def ewmAlpha (a : ℚ) : List ℚ → List ℚ
  | [] => []
  | x :: xs => ewmGo a x xs

/-- `Close.diff()` without its leading NaN: consecutive differences. -/
def deltas (closes : List ℚ) : List ℚ :=
  List.zipWith (fun b c => b - c) closes.tail closes

/-- `delta.where(delta > 0, 0)`: the positive parts of the differences,
with the leading NaN of `diff()` turned into 0 by the `where`. -/
def gains (closes : List ℚ) : List ℚ :=
  match closes with
  | [] => []
  | _ :: _ => 0 :: (deltas closes).map (fun d => max d 0)

/-- `(-delta).where(delta < 0, 0)` as above, for the losses. -/
def losses (closes : List ℚ) : List ℚ :=
  match closes with
  | [] => []
  | _ :: _ => 0 :: (deltas closes).map (fun d => max (-d) 0)

/-- Wilder average gain: ewm(alpha=1/14, adjust=False) of the gains. -/
def avgGain (closes : List ℚ) : List ℚ := ewmAlpha (1/14) (gains closes)

/-- Wilder average loss: ewm(alpha=1/14, adjust=False) of the losses. -/
def avgLoss (closes : List ℚ) : List ℚ := ewmAlpha (1/14) (losses closes)

/-- One RSI cell, `100 - 100/(1 + gain/loss)` under float semantics:
loss = 0 and gain = 0 gives 0/0 = NaN (undefined); loss = 0 and gain > 0
gives rs = +inf, so the RSI saturates to exactly 100. -/
def rsiPoint (g l : ℚ) : Option ℚ :=
  if l = 0 then (if g = 0 then none else some 100)
  else some (100 - 100 / (1 + g / l))

/-- The RSI(14) column of calculate_technical (fallback branch). -/
def rsiList (closes : List ℚ) : List (Option ℚ) :=
  List.zipWith rsiPoint (avgGain closes) (avgLoss closes)

/-- A strictly increasing sequence, checked pairwise. -/
def strictIncrB : List ℚ → Bool
  | a :: b :: t => decide (a < b) && strictIncrB (b :: t)
  | _ => true

/-- One OHLCV bar; only the four columns the screener reads. -/
structure Bar where
  high : ℚ
  low : ℚ
  close : ℚ
  volume : ℚ
deriving DecidableEq

/-- The trailing window of width w that ends at index i. -/
def windowEnd (w : ℕ) (xs : List ℚ) (i : ℕ) : List ℚ :=
  (xs.take (i + 1)).drop (i + 1 - w)

/-- `rolling(w).mean()`: NaN (none) until the window is full. -/
def rollingMean (w : ℕ) (xs : List ℚ) : List (Option ℚ) :=
  (List.range xs.length).map (fun i =>
    if i + 1 < w then none else some ((windowEnd w xs i).sum / (w : ℚ)))

/-- Minimum of a list, none when empty. -/
def listMin : List ℚ → Option ℚ
  | [] => none
  | x :: xs => some (xs.foldl min x)

/-- Maximum of a list, none when empty. -/
def listMax : List ℚ → Option ℚ
  | [] => none
  | x :: xs => some (xs.foldl max x)

/-- `rolling(w).min()`: NaN until the window is full. -/
def rollingMin (w : ℕ) (xs : List ℚ) : List (Option ℚ) :=
  (List.range xs.length).map (fun i =>
    if i + 1 < w then none else listMin (windowEnd w xs i))

/-- All cells of a window, provided none of them is NaN. -/
def allSome : List (Option ℚ) → Option (List ℚ)
  | [] => some []
  | none :: _ => none
  | some x :: rest => (allSome rest).map (fun vs => x :: vs)

/-- The trailing window of width w ending at i, over an Option column. -/
def windowEndO (w : ℕ) (xs : List (Option ℚ)) (i : ℕ) : List (Option ℚ) :=
  (xs.take (i + 1)).drop (i + 1 - w)

/-- `rolling(w).mean()` over a column that may hold NaNs: the result is
NaN until the window is full or when any cell of the window is NaN
(pandas' default min_periods counts only the non-NaN observations). -/
def rollingMeanO (w : ℕ) (xs : List (Option ℚ)) : List (Option ℚ) :=
  (List.range xs.length).map (fun i =>
    if i + 1 < w then none
    else (allSome (windowEndO w xs i)).map (fun vs => vs.sum / (w : ℚ)))

/-- `rolling(w).min()` over a column that may hold NaNs. -/
def rollingMinO (w : ℕ) (xs : List (Option ℚ)) : List (Option ℚ) :=
  (List.range xs.length).map (fun i =>
    if i + 1 < w then none else (allSome (windowEndO w xs i)).bind listMin)

/-- `rolling(w).max()` over a column that may hold NaNs. -/
def rollingMaxO (w : ℕ) (xs : List (Option ℚ)) : List (Option ℚ) :=
  (List.range xs.length).map (fun i =>
    if i + 1 < w then none else (allSome (windowEndO w xs i)).bind listMax)

/-- `ewm(span=s, adjust=False)`: alpha = 2/(s+1). -/
def emaSpan (s : ℚ) (xs : List ℚ) : List ℚ := ewmAlpha (2 / (s + 1)) xs

/-- The MACD(12,26,9) histogram column MACDh_12_26_9 of the fallback
branch: EMA12(close) - EMA26(close), minus its own EMA9. -/
def macdHist (closes : List ℚ) : List ℚ :=
  let macd := List.zipWith (fun a b => a - b) (emaSpan 12 closes) (emaSpan 26 closes)
  List.zipWith (fun a b => a - b) macd (emaSpan 9 macd)

/-- True ranges after the first bar: max(high-low, |high-prevClose|,
|low-prevClose|), threaded on the previous close. -/
def trGo (prevClose : ℚ) : List Bar → List ℚ
  | [] => []
  | b :: rest =>
    max (b.high - b.low) (max |b.high - prevClose| |b.low - prevClose|) :: trGo b.close rest

/-- The true-range series; the first bar has no previous close, and the
NaN-skipping row max of the source leaves high-low there. -/
def trueRanges : List Bar → List ℚ
  | [] => []
  | b :: rest => (b.high - b.low) :: trGo b.close rest

/-- The OBV steps from the second bar on: add volume when the close rose,
subtract it when it fell, keep the total when flat. -/
def obvGo (prevClose acc : ℚ) : List (ℚ × ℚ) → List ℚ
  | [] => []
  | (c, v) :: rest =>
    let acc2 := if prevClose < c then acc + v else if c < prevClose then acc - v else acc
    acc2 :: obvGo c acc2 rest

/-- The OBV column: a running total seeded at 0. -/
def obvList (closes vols : List ℚ) : List ℚ :=
  match closes.zip vols with
  | [] => []
  | (c, _) :: rest => 0 :: obvGo c 0 rest

/-- StochRSI raw value: (RSI - min14) / (max14 - min14), NaN where the
denominator is 0 (the source replaces the resulting inf with NaN). -/
def stochRawList (rsi : List (Option ℚ)) : List (Option ℚ) :=
  let mn := rollingMinO 14 rsi
  let mx := rollingMaxO 14 rsi
  List.zipWith (fun r p =>
    match r, p.1, p.2 with
    | some rv, some mv, some xv =>
      if xv - mv = 0 then none else some ((rv - mv) / (xv - mv))
    | _, _, _ => none) rsi (mn.zip mx)

/-- STOCH_RSI_K: 100 times the 3-bar rolling mean of the raw value. -/
def stochKList (rsi : List (Option ℚ)) : List (Option ℚ) :=
  (rollingMeanO 3 (stochRawList rsi)).map (fun o => o.map (fun v => v * 100))

/-- STOCH_RSI_D: the 3-bar rolling mean of %K. -/
def stochDList (rsi : List (Option ℚ)) : List (Option ℚ) :=
  rollingMeanO 3 (stochKList rsi)

/-- The IndicatorFrame columns computed by calculate_technical that have
exact rational values (all but the Bollinger band columns, whose rolling
standard deviation is irrational; see the header note). -/
structure Frame where
  close : List ℚ
  high : List ℚ
  low : List ℚ
  volume : List ℚ
  rsi : List (Option ℚ)
  macdH : List ℚ
  sma200 : List (Option ℚ)
  sma50 : List (Option ℚ)
  ema20 : List ℚ
  atr : List (Option ℚ)
  volMA5 : List (Option ℚ)
  volMA20 : List (Option ℚ)
  obv : List ℚ
  obvMA5 : List (Option ℚ)
  bbMid : List (Option ℚ)
  stochK : List (Option ℚ)
  stochD : List (Option ℚ)
  swingLow10 : List (Option ℚ)
deriving DecidableEq

/-- calculate_technical: None for an empty or shorter-than-50-bar history,
otherwise every indicator column, each of the history's length. -/
def calculateTechnical (bars : List Bar) : Option Frame :=
  if bars.length < 50 then none
  else
    let closes := bars.map Bar.close
    let vols := bars.map Bar.volume
    let rsi := rsiList closes
    let obv := obvList closes vols
    some
      { close := closes
        high := bars.map Bar.high
        low := bars.map Bar.low
        volume := vols
        rsi := rsi
        macdH := macdHist closes
        sma200 := rollingMean 200 closes
        sma50 := rollingMean 50 closes
        ema20 := emaSpan 20 closes
        atr := rollingMean 14 (trueRanges bars)
        volMA5 := rollingMean 5 vols
        volMA20 := rollingMean 20 vols
        obv := obv
        obvMA5 := rollingMean 5 obv
        bbMid := rollingMean 20 closes
        stochK := stochKList rsi
        stochD := stochDList rsi
        swingLow10 := rollingMin 10 (bars.map Bar.low) }

/-- One row of the IndicatorFrame as the scoring loop reads it (`curr` or
`prev`): the raw OHLCV cells are always present, every derived cell may be
NaN.  The three Bollinger cells come from BBInputs (see header note). -/
structure Row where
  close : ℚ
  high : ℚ
  low : ℚ
  volume : ℚ
  rsi : Option ℚ
  macdH : Option ℚ
  volMA5 : Option ℚ
  volMA20 : Option ℚ
  sma200 : Option ℚ
  ema20 : Option ℚ
  stochK : Option ℚ
  stochD : Option ℚ
  obv : Option ℚ
  obvMA5 : Option ℚ
  atr : Option ℚ
  swingLow10 : Option ℚ
  bbLower : Option ℚ
  bbWidth : Option ℚ
  bbMid : Option ℚ
deriving DecidableEq

/-- The Bollinger-band cells of the last two rows and the dropna'd
BB_WIDTH column, taken as unconstrained inputs (header note). -/
structure BBInputs where
  currLower : Option ℚ
  prevLower : Option ℚ
  currWidth : Option ℚ
  prevWidth : Option ℚ
  currMid : Option ℚ
  widthSeries : List ℚ
deriving DecidableEq

/-- `Series.quantile(0.05)` with pandas' linear interpolation: on the
sorted values, position p = 0.05*(n-1), and the value is
s[floor p] + (p - floor p) * (s[floor p + 1] - s[floor p]). -/
def quantile05 (xs : List ℚ) : ℚ :=
  let s := xs.insertionSort (fun a b => a ≤ b)
  if s.length = 0 then 0
  else
    let p : ℚ := (1/20) * ((s.length : ℚ) - 1)
    let i : ℕ := (Int.floor p).toNat
    let lo := s.getD i 0
    let hi := s.getD (i + 1) lo
    lo + (p - (i : ℚ)) * (hi - lo)

/-- Rule 1, RSI: +3 with a tag below 30, +1 with a tag in [30, 40).
The source formats the RSI value into the tag; the tags here are fixed
strings, as no claim reads their text. -/
def rsiRule (r : ℚ) : ℤ × List String :=
  if r < 30 then (3, ["RSI Oversold"])
  else if 30 ≤ r ∧ r < 40 then (1, ["RSI Murah"])
  else (0, [])

/-- Rule 2, MACD: +3 with a tag when the histogram crosses from strictly
negative to strictly positive; else +1 (no tag in the source) when the
histogram rose and the current histogram is above -0.5.  Skipped when
either histogram cell is NaN. -/
def macdRule (hNow hPrev : Option ℚ) : ℤ × List String :=
  match hNow, hPrev with
  | some n, some p =>
    if 0 < n ∧ p < 0 then (3, ["MACD Golden Cross"])
    else if p < n ∧ -0.5 < n then (1, [])
    else (0, [])
  | _, _ => (0, [])

/-- Rule 3, volume spike: +2 when volume exceeds 1.5 times VOL_MA5,
requiring VOL_MA5 present and positive. -/
def volumeRule (volMA5 : Option ℚ) (volume : ℚ) : ℤ × List String :=
  match volMA5 with
  | some m =>
    if 0 < m then (if m * 1.5 < volume then (2, ["Volume Spike"]) else (0, []))
    else (0, [])
  | none => (0, [])

/-- Rule 4, trend filter: +1 when the close is above SMA_200. -/
def sma200Rule (sma200 : Option ℚ) (close : ℚ) : ℤ × List String :=
  match sma200 with
  | some s => if s < close then (1, ["Uptrend MA200"]) else (0, [])
  | none => (0, [])

/-- Rule 5, Bollinger bands: +2 for a bounce off the lower band
(yesterday's close at or below 1.01 times yesterday's lower band, today's
close back above today's lower band); otherwise, when the current width is
present and at least 20 width samples exist, +2 for a squeeze breakout
(yesterday's width at or below the 5th percentile of all widths, today's
close above the mid band).  Skipped when either lower-band cell is NaN;
a NaN in any cell a comparison needs keeps that comparison False, exactly
as a NaN comparison does in the source. -/
def bbRule (currLower prevLower currWidth prevWidth currMid : Option ℚ)
    (currClose prevClose : ℚ) (widthSeries : List ℚ) : ℤ × List String :=
  match currLower, prevLower with
  | some cl, some pl =>
    if prevClose ≤ pl * 1.01 ∧ cl < currClose then (2, ["BB Lower Bounce"])
    else
      match currWidth with
      | some _ =>
        if 20 ≤ widthSeries.length then
          match prevWidth, currMid with
          | some pw, some mid =>
            if pw ≤ quantile05 widthSeries ∧ mid < currClose then
              (2, ["BB Squeeze Breakout"])
            else (0, [])
          | _, _ => (0, [])
        else (0, [])
      | none => (0, [])
  | _, _ => (0, [])

/-- Rule 6, StochRSI: +2 with a tag when current %K is under 30,
yesterday %K was at or below yesterday %D, and today %K is above today %D.
Skipped when any of the four cells is NaN. -/
def stochRule (currK currD prevK prevD : Option ℚ) : ℤ × List String :=
  match currK, currD, prevK, prevD with
  | some ck, some cd, some pk, some pdv =>
    if ck < 30 ∧ pk ≤ pdv ∧ cd < ck then (2, ["StochRSI Cross Up"]) else (0, [])
  | _, _, _, _ => (0, [])

/-- Rule 7, OBV rising: when current OBV is above current OBV_MA5, the
source takes the last five OBV cells of the frame and awards +1 when the
last of them exceeds the first of them.  Skipped when either current cell
is NaN. -/
def obvRule (obv obvMA5 : Option ℚ) (obvSeries : List ℚ) : ℤ × List String :=
  match obv, obvMA5 with
  | some ov, some mv =>
    if mv < ov then
      if 5 ≤ (obvSeries.drop (obvSeries.length - 5)).length then
        if (obvSeries.drop (obvSeries.length - 5)).headD 0 <
            (obvSeries.drop (obvSeries.length - 5)).getLastD 0 then
          (1, ["OBV Rising"])
        else (0, [])
      else (0, [])
    else (0, [])
  | _, _ => (0, [])

/-- Rule 8, EMA20: +1 when the close is above EMA_20. -/
def ema20Rule (ema20 : Option ℚ) (close : ℚ) : ℤ × List String :=
  match ema20 with
  | some e => if e < close then (1, ["Above EMA20"]) else (0, [])
  | none => (0, [])

/-- The total score: the sum of the eight rules' points, evaluated on the
current and previous rows exactly in the source's order. -/
def scoreOf (curr prev : Row) (rsiV : ℚ) (widthSeries obvSeries : List ℚ) : ℤ :=
  (rsiRule rsiV).1
    + (macdRule curr.macdH prev.macdH).1
    + (volumeRule curr.volMA5 curr.volume).1
    + (sma200Rule curr.sma200 curr.close).1
    + (bbRule curr.bbLower prev.bbLower curr.bbWidth prev.bbWidth curr.bbMid
        curr.close prev.close widthSeries).1
    + (stochRule curr.stochK curr.stochD prev.stochK prev.stochD).1
    + (obvRule curr.obv curr.obvMA5 obvSeries).1
    + (ema20Rule curr.ema20 curr.close).1

/-- The reason tags, concatenated in the source's rule order. -/
def reasonsOf (curr prev : Row) (rsiV : ℚ) (widthSeries obvSeries : List ℚ) :
    List String :=
  (rsiRule rsiV).2
    ++ (macdRule curr.macdH prev.macdH).2
    ++ (volumeRule curr.volMA5 curr.volume).2
    ++ (sma200Rule curr.sma200 curr.close).2
    ++ (bbRule curr.bbLower prev.bbLower curr.bbWidth prev.bbWidth curr.bbMid
        curr.close prev.close widthSeries).2
    ++ (stochRule curr.stochK curr.stochD prev.stochK prev.stochD).2
    ++ (obvRule curr.obv curr.obvMA5 obvSeries).2
    ++ (ema20Rule curr.ema20 curr.close).2

/-- The stop-loss, take-profit and risk-reward block of a candidate. -/
structure Targets where
  sl : ℚ
  tp1 : ℚ
  tp2 : ℚ
  rr1 : ℚ
  rr2 : ℚ
deriving DecidableEq

/-- The Risk/Target Calculator, lines 423-446 of the source: ATR falls
back to high-low when NaN; the stop is the lower of the ATR stop and the
10-day swing low (the ATR stop alone when the swing low is NaN); a
non-positive stop falls back to 0.9 times the close; the risk is the
distance to the stop, falling back to the ATR when non-positive; the
targets sit 1.618 and 2.618 risks above the close. -/
def calcTargets (close high low : ℚ) (atr swingLow10 : Option ℚ) : Targets :=
  let a := atr.getD (high - low)
  let atrSl := close - a * 1.5
  let swingSl := swingLow10.getD atrSl
  let sl0 := min atrSl swingSl
  let sl := if sl0 ≤ 0 then close * 0.9 else sl0
  let risk0 := close - sl
  let risk := if risk0 ≤ 0 then a else risk0
  let tp1 := close + risk * 1.618
  let tp2 := close + risk * 2.618
  let rr1 := if 0 < risk then (tp1 - close) / risk else 0
  let rr2 := if 0 < risk then (tp2 - close) / risk else 0
  { sl := sl, tp1 := tp1, tp2 := tp2, rr1 := rr1, rr2 := rr2 }

/-- One candidate row, as appended to the per-batch candidate list. -/
structure Candidate where
  symbol : String
  price : ℚ
  rsi : ℚ
  score : ℤ
  sl : ℚ
  tp1 : ℚ
  tp2 : ℚ
  rr1 : ℚ
  rr2 : ℚ
  reasons : List String
deriving DecidableEq

/-- The per-instrument scoring body of process_batch, lines 340-461: the
liquidity gate first (close under MIN_PRICE, or 20-day average volume -
read as 0 when NaN - under MIN_VOLUME_AVG, rejects with no score), then
outright rejection on a NaN RSI, then the eight additive rules, the
target block, and the threshold check.  The result is the candidate
appended for this instrument, or none. -/
def evalRows (symbol : String) (curr prev : Row) (widthSeries obvSeries : List ℚ)
    (threshold : ℤ) : Option Candidate :=
  if curr.close < MIN_PRICE ∨ curr.volMA20.getD 0 < MIN_VOLUME_AVG then none
  else
    match curr.rsi with
    | none => none
    | some rsiV =>
      if threshold ≤ scoreOf curr prev rsiV widthSeries obvSeries then
        some
          { symbol := symbol
            price := curr.close
            rsi := rsiV
            score := scoreOf curr prev rsiV widthSeries obvSeries
            sl := (calcTargets curr.close curr.high curr.low curr.atr curr.swingLow10).sl
            tp1 := (calcTargets curr.close curr.high curr.low curr.atr curr.swingLow10).tp1
            tp2 := (calcTargets curr.close curr.high curr.low curr.atr curr.swingLow10).tp2
            rr1 := (calcTargets curr.close curr.high curr.low curr.atr curr.swingLow10).rr1
            rr2 := (calcTargets curr.close curr.high curr.low curr.atr curr.swingLow10).rr2
            reasons := reasonsOf curr prev rsiV widthSeries obvSeries }
      else none

/-- The last cell of a rational column, as curr reads it. -/
def lastQ (xs : List ℚ) : ℚ := xs.getLast?.getD 0

/-- The second-to-last cell of a rational column, as prev reads it. -/
def prevQ (xs : List ℚ) : ℚ := xs.dropLast.getLast?.getD 0

/-- The last cell of an Option column. -/
def lastO (xs : List (Option ℚ)) : Option ℚ := xs.getLast?.getD none

/-- The second-to-last cell of an Option column. -/
def prevO (xs : List (Option ℚ)) : Option ℚ := xs.dropLast.getLast?.getD none

/-- `df.iloc[-1]` assembled into a Row. -/
def currRowOf (f : Frame) (bb : BBInputs) : Row :=
  { close := lastQ f.close
    high := lastQ f.high
    low := lastQ f.low
    volume := lastQ f.volume
    rsi := lastO f.rsi
    macdH := f.macdH.getLast?
    volMA5 := lastO f.volMA5
    volMA20 := lastO f.volMA20
    sma200 := lastO f.sma200
    ema20 := f.ema20.getLast?
    stochK := lastO f.stochK
    stochD := lastO f.stochD
    obv := f.obv.getLast?
    obvMA5 := lastO f.obvMA5
    atr := lastO f.atr
    swingLow10 := lastO f.swingLow10
    bbLower := bb.currLower
    bbWidth := bb.currWidth
    bbMid := bb.currMid }

/-- `df.iloc[-2]` assembled into a Row (only close, MACD histogram,
Bollinger cells and StochRSI cells of prev are ever read). -/
def prevRowOf (f : Frame) (bb : BBInputs) : Row :=
  { close := prevQ f.close
    high := prevQ f.high
    low := prevQ f.low
    volume := prevQ f.volume
    rsi := prevO f.rsi
    macdH := f.macdH.dropLast.getLast?
    volMA5 := prevO f.volMA5
    volMA20 := prevO f.volMA20
    sma200 := prevO f.sma200
    ema20 := f.ema20.dropLast.getLast?
    stochK := prevO f.stochK
    stochD := prevO f.stochD
    obv := f.obv.dropLast.getLast?
    obvMA5 := prevO f.obvMA5
    atr := prevO f.atr
    swingLow10 := prevO f.swingLow10
    bbLower := bb.prevLower
    bbWidth := bb.prevWidth
    bbMid := none }

/-- One instrument inside process_batch, lines 329-461: skipped outright
when its daily history is shorter than 60 bars, then run through
calculate_technical (whose own gate is 50 bars), then scored on its last
two rows. -/
def processTicker (symbol : String) (bars : List Bar) (bb : BBInputs)
    (threshold : ℤ) : Option Candidate :=
  if bars.length < 60 then none
  else
    match calculateTechnical bars with
    | none => none
    | some f =>
      evalRows symbol (currRowOf f bb) (prevRowOf f bb) bb.widthSeries f.obv threshold

/-- One instrument of the downloaded batch. -/
structure InstrumentInput where
  symbol : String
  bars : List Bar
  bb : BBInputs
deriving DecidableEq

/-- process_batch: the candidate list is every instrument's candidate,
under the threshold selected by the active regime. -/
def processBatch (items : List InstrumentInput) (regime : Regime) : List Candidate :=
  items.filterMap (fun it => processTicker it.symbol it.bars it.bb (scoreThreshold regime))

/-- The one reason tag the weekly-confirmation step appends. -/
def weeklyTag : String := "Weekly Uptrend"

/-- The weekly-confirmation step for one candidate, lines 516-519 of the
source: +2 and one appended tag when the weekly uptrend check passed. -/
def applyWeeklyBonus (weeklyUp : String → Bool) (c : Candidate) : Candidate :=
  if weeklyUp c.symbol then
    { c with score := c.score + 2, reasons := c.reasons ++ [weeklyTag] }
  else c

/-- The weekly-confirmation loop of main over the final candidate list. -/
def weeklyMerge (weeklyUp : String → Bool) (cands : List Candidate) : List Candidate :=
  cands.map (applyWeeklyBonus weeklyUp)

/-- A row with every derived cell NaN, the base of the concrete examples. -/
def row0 : Row :=
  { close := 0, high := 0, low := 0, volume := 0
    rsi := none, macdH := none, volMA5 := none, volMA20 := none
    sma200 := none, ema20 := none, stochK := none, stochD := none
    obv := none, obvMA5 := none, atr := none, swingLow10 := none
    bbLower := none, bbWidth := none, bbMid := none }

/-- Example current row: liquid, RSI 25, a fresh golden cross, a volume
spike, ATR 10 - score 3 + 3 + 2 = 8. -/
def currEx4 : Row :=
  { row0 with
    close := 200, high := 210, low := 190, volume := 300
    rsi := some 25, macdH := some 1, volMA5 := some 100, volMA20 := some 200000
    atr := some 10 }

/-- Example previous row for currEx4. -/
def prevEx4 : Row := { row0 with close := 195, macdH := some (-1) }

/-- The candidate evalRows builds from currEx4 and prevEx4. -/
def cEx4 : Candidate :=
  { symbol := "EX4", price := 200, rsi := 25, score := 8, sl := 185
    tp1 := 22427/100, tp2 := 23927/100, rr1 := 809/500, rr2 := 1309/500
    reasons := ["RSI Oversold", "MACD Golden Cross", "Volume Spike"] }

/-- Example current row for the threshold conjunct of the weekly-bonus
claim: liquid, RSI 25 and a golden cross - score 6. -/
def currEx3 : Row :=
  { row0 with
    close := 150, high := 160, low := 140, volume := 100
    rsi := some 25, macdH := some 2, volMA20 := some 150000, atr := some 5 }

/-- Example previous row for currEx3. -/
def prevEx3 : Row := { row0 with close := 149, macdH := some (-2) }

/-- The candidate evalRows builds from currEx3 and prevEx3. -/
def cEx3 : Candidate :=
  { symbol := "EX3", price := 150, rsi := 25, score := 6, sl := 285/2
    tp1 := 32427/200, tp2 := 33927/200, rr1 := 809/500, rr2 := 1309/500
    reasons := ["RSI Oversold", "MACD Golden Cross"] }

/-- An illiquid example row: close 50 is under MIN_PRICE. -/
def rowCheap : Row := { row0 with close := 50, volMA20 := some 500000, rsi := some 25 }

/-- A liquid example row whose RSI cell is NaN. -/
def rowNoRsi : Row := { row0 with close := 500, volMA20 := some 500000 }

/-- A flat bar for the warm-up length examples. -/
def barFlat : Bar := { high := 1, low := 1, close := 1, volume := 1 }

/-- 55 flat bars: enough for calculate_technical, too short for the
orchestrator's 60-bar gate. -/
def bars55 : List Bar := List.replicate 55 barFlat

/-- Empty Bollinger inputs for the examples. -/
def bbEmpty : BBInputs :=
  { currLower := none, prevLower := none, currWidth := none, prevWidth := none
    currMid := none, widthSeries := [] }

/-- The closes 1, 2, ..., 30: strictly increasing, length 30. -/
def closes30 : List ℚ :=
  [1, 2, 3, 4, 5, 6, 7, 8, 9, 10, 11, 12, 13, 14, 15, 16, 17, 18, 19, 20,
   21, 22, 23, 24, 25, 26, 27, 28, 29, 30]

end Screener

namespace Screener

theorem getLast?_cons_ne {α : Type*} (y : α) (l : List α) (h : l ≠ []) :
    (y :: l).getLast? = l.getLast? := by
  cases l with
  | nil => exact absurd rfl h
  | cons a t => exact List.getLast?_cons_cons

theorem ewmGo_ne_nil (a y : ℚ) (xs : List ℚ) : ewmGo a y xs ≠ [] := by
  cases xs <;> simp [ewmGo]

theorem ewmGo_length (a y : ℚ) (xs : List ℚ) : (ewmGo a y xs).length = xs.length + 1 := by
  induction xs generalizing y with
  | nil => rfl
  | cons x xs ih => simp [ewmGo, ih]

theorem ewmAlpha_length (a : ℚ) (xs : List ℚ) : (ewmAlpha a xs).length = xs.length := by
  cases xs with
  | nil => rfl
  | cons x xs => simp [ewmAlpha, ewmGo_length]

theorem ewmGo_nonneg (a : ℚ) (ha0 : 0 ≤ a) (ha1 : a ≤ 1) :
    ∀ (xs : List ℚ) (y : ℚ), 0 ≤ y → (∀ x ∈ xs, 0 ≤ x) →
    ∀ z ∈ ewmGo a y xs, 0 ≤ z := by
  intro xs
  induction xs with
  | nil =>
    intro y hy _ z hz
    simp only [ewmGo, List.mem_singleton] at hz
    exact hz ▸ hy
  | cons x xs ih =>
    intro y hy hxs z hz
    simp only [ewmGo, List.mem_cons] at hz
    rcases hz with rfl | hz
    · exact hy
    · have hx : 0 ≤ x := hxs x (List.mem_cons_self _ _)
      have hy2 : 0 ≤ (1 - a) * y + a * x :=
        add_nonneg (mul_nonneg (by linarith) hy) (mul_nonneg ha0 hx)
      exact ih _ hy2 (fun w hw => hxs w (List.mem_cons_of_mem _ hw)) z hz

theorem ewmAlpha_nonneg (a : ℚ) (ha0 : 0 ≤ a) (ha1 : a ≤ 1)
    (xs : List ℚ) (hxs : ∀ x ∈ xs, 0 ≤ x) : ∀ z ∈ ewmAlpha a xs, 0 ≤ z := by
  cases xs with
  | nil => simp [ewmAlpha]
  | cons x xs =>
    simp only [ewmAlpha]
    exact ewmGo_nonneg a ha0 ha1 xs x (hxs x (List.mem_cons_self _ _))
      (fun w hw => hxs w (List.mem_cons_of_mem _ hw))

theorem ewmGo_getLast_zero (a : ℚ) :
    ∀ (xs : List ℚ), (∀ x ∈ xs, x = 0) → (ewmGo a 0 xs).getLast? = some 0 := by
  intro xs
  induction xs with
  | nil => intro _; rfl
  | cons x xs ih =>
    intro h
    have hx : x = 0 := h x (List.mem_cons_self _ _)
    have hrw : (1 - a) * 0 + a * x = 0 := by rw [hx]; ring
    simp only [ewmGo, hrw]
    rw [getLast?_cons_ne _ _ (ewmGo_ne_nil a 0 xs)]
    exact ih (fun w hw => h w (List.mem_cons_of_mem _ hw))

theorem ewmGo_getLast_pos (a : ℚ) (ha0 : 0 < a) (ha1 : a < 1) :
    ∀ (xs : List ℚ) (y : ℚ), 0 < y → (∀ x ∈ xs, 0 ≤ x) →
    ∃ g, (ewmGo a y xs).getLast? = some g ∧ 0 < g := by
  intro xs
  induction xs with
  | nil => intro y hy _; exact ⟨y, rfl, hy⟩
  | cons x xs ih =>
    intro y hy hxs
    have hx : 0 ≤ x := hxs x (List.mem_cons_self _ _)
    have hy2 : 0 < (1 - a) * y + a * x :=
      add_pos_of_pos_of_nonneg (mul_pos (by linarith) hy) (mul_nonneg ha0.le hx)
    simp only [ewmGo]
    rw [getLast?_cons_ne _ _ (ewmGo_ne_nil _ _ _)]
    exact ih _ hy2 (fun w hw => hxs w (List.mem_cons_of_mem _ hw))

theorem ewmAlpha_zeros_getLast (a : ℚ) (xs : List ℚ) (hxs : ∀ x ∈ xs, x = 0) :
    (ewmAlpha a (0 :: xs)).getLast? = some 0 := by
  simp only [ewmAlpha]
  exact ewmGo_getLast_zero a xs hxs

theorem ewmAlpha_zero_cons_getLast_pos (a : ℚ) (ha0 : 0 < a) (ha1 : a < 1)
    (m : ℚ) (ms : List ℚ) (hm : 0 < m) (hms : ∀ x ∈ ms, 0 ≤ x) :
    ∃ g, (ewmAlpha a (0 :: m :: ms)).getLast? = some g ∧ 0 < g := by
  simp only [ewmAlpha, ewmGo]
  rw [getLast?_cons_ne _ _ (ewmGo_ne_nil _ _ _)]
  have hy : 0 < (1 - a) * 0 + a * m := by nlinarith
  exact ewmGo_getLast_pos a ha0 ha1 ms _ hy hms

theorem zipWith_getLast? {α β γ : Type*} (f : α → β → γ) :
    ∀ (as : List α) (bs : List β), as.length = bs.length →
    ∀ (a : α) (b : β), as.getLast? = some a → bs.getLast? = some b →
    (List.zipWith f as bs).getLast? = some (f a b) := by
  intro as
  induction as with
  | nil => intro bs _ a b ha _; simp at ha
  | cons x xs ih =>
    intro bs hlen a b ha hb
    cases bs with
    | nil => simp at hlen
    | cons y ys =>
      cases xs with
      | nil =>
        cases ys with
        | nil =>
          simp only [List.getLast?_singleton, Option.some_inj] at ha hb
          simp [ha, hb]
        | cons y2 ys2 => simp at hlen
      | cons x2 xs2 =>
        cases ys with
        | nil => simp at hlen
        | cons y2 ys2 =>
          rw [List.getLast?_cons_cons] at ha
          rw [List.getLast?_cons_cons] at hb
          have hz : List.zipWith f (x :: x2 :: xs2) (y :: y2 :: ys2) =
              f x y :: List.zipWith f (x2 :: xs2) (y2 :: ys2) := rfl
          rw [hz, getLast?_cons_ne _ _ (by simp)]
          exact ih (y2 :: ys2) (by simpa using hlen) a b ha hb

theorem rsiPoint_bound (g l : ℚ) (hg : 0 ≤ g) (hl : 0 ≤ l) (v : ℚ)
    (h : rsiPoint g l = some v) : 0 ≤ v ∧ v ≤ 100 := by
  unfold rsiPoint at h
  by_cases h1 : l = 0
  · rw [if_pos h1] at h
    by_cases h2 : g = 0
    · rw [if_pos h2] at h
      simp at h
    · rw [if_neg h2] at h
      have hv : v = 100 := (Option.some_inj.mp h).symm
      rw [hv]
      norm_num
  · rw [if_neg h1] at h
    have hl2 : 0 < l := lt_of_le_of_ne hl (Ne.symm h1)
    have hrs : 0 ≤ g / l := div_nonneg hg hl2.le
    have h1p : (0 : ℚ) < 1 + g / l := by linarith
    have hle : 100 / (1 + g / l) ≤ 100 := div_le_self (by norm_num) (by linarith)
    have hpos : 0 < 100 / (1 + g / l) := div_pos (by norm_num) h1p
    have hv : v = 100 - 100 / (1 + g / l) := (Option.some_inj.mp h).symm
    rw [hv]
    constructor <;> linarith

theorem zipWith_rsiPoint_bound :
    ∀ (gs ls : List ℚ), (∀ g ∈ gs, 0 ≤ g) → (∀ l ∈ ls, 0 ≤ l) →
    ∀ r ∈ List.zipWith rsiPoint gs ls, ∀ v, r = some v → 0 ≤ v ∧ v ≤ 100 := by
  intro gs
  induction gs with
  | nil => intro ls _ _ r hr; simp at hr
  | cons g gs ih =>
    intro ls hg hl r hr v hv
    cases ls with
    | nil => simp at hr
    | cons l ls =>
      simp only [List.zipWith_cons_cons, List.mem_cons] at hr
      rcases hr with rfl | hr
      · exact rsiPoint_bound g l (hg g (List.mem_cons_self _ _))
          (hl l (List.mem_cons_self _ _)) v hv
      · exact ih ls (fun w hw => hg w (List.mem_cons_of_mem _ hw))
          (fun w hw => hl w (List.mem_cons_of_mem _ hw)) r hr v hv

theorem gains_nonneg (closes : List ℚ) : ∀ x ∈ gains closes, 0 ≤ x := by
  cases closes with
  | nil => simp [gains]
  | cons c cs =>
    intro x hx
    simp only [gains, List.mem_cons] at hx
    rcases hx with rfl | hx
    · exact le_refl 0
    · rcases List.mem_map.mp hx with ⟨d, _, rfl⟩
      exact le_max_right d 0

theorem losses_nonneg (closes : List ℚ) : ∀ x ∈ losses closes, 0 ≤ x := by
  cases closes with
  | nil => simp [losses]
  | cons c cs =>
    intro x hx
    simp only [losses, List.mem_cons] at hx
    rcases hx with rfl | hx
    · exact le_refl 0
    · rcases List.mem_map.mp hx with ⟨d, _, rfl⟩
      exact le_max_right (-d) 0

theorem deltas_cons_cons (c0 c1 : ℚ) (t : List ℚ) :
    deltas (c0 :: c1 :: t) = (c1 - c0) :: deltas (c1 :: t) := rfl

theorem strictIncrB_cons_cons (a b : ℚ) (t : List ℚ)
    (h : strictIncrB (a :: b :: t) = true) :
    a < b ∧ strictIncrB (b :: t) = true := by
  simpa [strictIncrB, Bool.and_eq_true, decide_eq_true_eq] using h

theorem deltas_pos : ∀ (closes : List ℚ), strictIncrB closes = true →
    ∀ d ∈ deltas closes, 0 < d := by
  intro closes
  induction closes with
  | nil => intro _ d hd; simp [deltas] at hd
  | cons c0 cs ih =>
    intro h d hd
    cases cs with
    | nil => simp [deltas] at hd
    | cons c1 t =>
      obtain ⟨hlt, hrest⟩ := strictIncrB_cons_cons c0 c1 t h
      rw [deltas_cons_cons, List.mem_cons] at hd
      rcases hd with rfl | hd
      · linarith
      · exact ih hrest d hd

/-- C1: for defined latest close, SMA50 and SMA200 of the benchmark frame,
the regime is BULLISH exactly when close > SMA50, close > SMA200 and
SMA50 > SMA200; BEARISH exactly when close < SMA50 and close < SMA200 and
the BULLISH condition fails; NEUTRAL exactly otherwise; and the minimum
qualifying scores are BULLISH 5, NEUTRAL 6, BEARISH 8. -/
theorem regime_rules_and_thresholds :
    (∀ close sma50 sma200 : ℚ,
      (classifyRegime close sma50 sma200 = Regime.BULLISH ↔
        sma50 < close ∧ sma200 < close ∧ sma200 < sma50) ∧
      (classifyRegime close sma50 sma200 = Regime.BEARISH ↔
        (close < sma50 ∧ close < sma200) ∧
          ¬(sma50 < close ∧ sma200 < close ∧ sma200 < sma50)) ∧
      (classifyRegime close sma50 sma200 = Regime.NEUTRAL ↔
        ¬(sma50 < close ∧ sma200 < close ∧ sma200 < sma50) ∧
          ¬(close < sma50 ∧ close < sma200))) ∧
    scoreThreshold Regime.BULLISH = 5 ∧ scoreThreshold Regime.NEUTRAL = 6 ∧
      scoreThreshold Regime.BEARISH = 8 := by
  refine ⟨?_, rfl, rfl, rfl⟩
  intro close sma50 sma200
  unfold classifyRegime
  split_ifs with h1 h2 <;> simp_all

/-- Witness for the regime rules: close 100, SMA50 95, SMA200 90 is
classified BULLISH (the scenario of the spec). -/
theorem regime_rules_and_thresholds_w :
    classifyRegime 100 95 90 = Regime.BULLISH :=
  ((regime_rules_and_thresholds.1 100 95 90).1).mpr (by norm_num)

/-- C8: the Regime Classifier never leaves the regime unset - a missing
history (failed download or raised error) and a shorter-than-200-bar
history both return NEUTRAL with an explanatory note, and every input
yields one of the three regimes. -/
theorem regime_never_unset :
    getMarketRegime none = (Regime.NEUTRAL, "Error deteksi market regime") ∧
    (∀ closes : List ℚ, closes.length < 200 →
      getMarketRegime (some closes) = (Regime.NEUTRAL, "Data IHSG tidak tersedia")) ∧
    (∀ h : Option (List ℚ), (getMarketRegime h).1 = Regime.BULLISH ∨
      (getMarketRegime h).1 = Regime.NEUTRAL ∨ (getMarketRegime h).1 = Regime.BEARISH) := by
  refine ⟨rfl, ?_, ?_⟩
  · intro closes hlen
    simp only [getMarketRegime]
    rw [if_pos hlen]
  · intro h
    cases hr : (getMarketRegime h).1 <;> simp

/-- Witness for the regime fallback: the empty history is recovered as
NEUTRAL with the explanatory note. -/
theorem regime_never_unset_w :
    getMarketRegime (some []) = (Regime.NEUTRAL, "Data IHSG tidak tersedia") :=
  regime_never_unset.2.1 [] (by norm_num)

/-- C9: wherever the RSI(14) column is defined it lies in [0, 100]; for a
strictly increasing close sequence of length at least 30 the final average
loss is 0 and the final average gain positive, so the final RSI saturates
to exactly 100; and a bar where both averages are 0 has an undefined RSI. -/
theorem rsi_bounded_and_saturates :
    (∀ closes : List ℚ, ∀ r ∈ rsiList closes, ∀ v : ℚ, r = some v →
      0 ≤ v ∧ v ≤ 100) ∧
    (∀ closes : List ℚ, 30 ≤ closes.length → strictIncrB closes = true →
      (avgLoss closes).getLast? = some 0 ∧
      (∃ g, (avgGain closes).getLast? = some g ∧ 0 < g) ∧
      (rsiList closes).getLast? = some (some 100)) ∧
    rsiPoint 0 0 = none := by
  refine ⟨?_, ?_, rfl⟩
  · intro closes r hr v hv
    have hg := ewmAlpha_nonneg (1/14) (by norm_num) (by norm_num)
      (gains closes) (gains_nonneg closes)
    have hl := ewmAlpha_nonneg (1/14) (by norm_num) (by norm_num)
      (losses closes) (losses_nonneg closes)
    simp only [rsiList] at hr
    exact zipWith_rsiPoint_bound (avgGain closes) (avgLoss closes) hg hl r hr v hv
  · intro closes hlen hinc
    rcases closes with _ | ⟨c0, cs⟩
    · simp only [List.length_nil] at hlen
      omega
    rcases cs with _ | ⟨c1, t⟩
    · simp only [List.length_cons, List.length_nil] at hlen
      omega
    obtain ⟨h01, hrest⟩ := strictIncrB_cons_cons c0 c1 t hinc
    have hdpos : ∀ d ∈ deltas (c0 :: c1 :: t), 0 < d := deltas_pos _ hinc
    have hlossLast : (avgLoss (c0 :: c1 :: t)).getLast? = some 0 := by
      have hlosses : losses (c0 :: c1 :: t) =
          0 :: (deltas (c0 :: c1 :: t)).map (fun d => max (-d) 0) := rfl
      rw [avgLoss, hlosses]
      apply ewmAlpha_zeros_getLast
      intro x hx
      rcases List.mem_map.mp hx with ⟨d, hd, rfl⟩
      have := hdpos d hd
      exact max_eq_right (by linarith)
    have hgainLast : ∃ g, (avgGain (c0 :: c1 :: t)).getLast? = some g ∧ 0 < g := by
      have hgains : gains (c0 :: c1 :: t) =
          0 :: max (c1 - c0) 0 :: (deltas (c1 :: t)).map (fun d => max d 0) := rfl
      rw [avgGain, hgains]
      apply ewmAlpha_zero_cons_getLast_pos (1/14) (by norm_num) (by norm_num)
      · exact lt_max_of_lt_left (by linarith)
      · intro x hx
        rcases List.mem_map.mp hx with ⟨d, hd, rfl⟩
        exact le_max_right d 0
    obtain ⟨g, hgl, hgpos⟩ := hgainLast
    refine ⟨hlossLast, ⟨g, hgl, hgpos⟩, ?_⟩
    have hlen2 : (avgGain (c0 :: c1 :: t)).length = (avgLoss (c0 :: c1 :: t)).length := by
      rw [avgGain, avgLoss, ewmAlpha_length, ewmAlpha_length]
      simp [gains, losses]
    have hz := zipWith_getLast? rsiPoint (avgGain (c0 :: c1 :: t))
      (avgLoss (c0 :: c1 :: t)) hlen2 g 0 hgl hlossLast
    simp only [rsiList]
    rw [hz]
    have hrp : rsiPoint g 0 = some 100 := by
      simp [rsiPoint, hgpos.ne']
    rw [hrp]

/-- Witness for the RSI claim: on the strictly increasing closes 1..30 the
last RSI cell is exactly 100. -/
theorem rsi_bounded_and_saturates_w :
    (rsiList closes30).getLast? = some (some 100) :=
  (rsi_bounded_and_saturates.2.1 closes30 (by decide) (by decide)).2.2

theorem tp_rr_block (close risk : ℚ) (hr : 0 < risk) :
    close < close + risk * 1.618 ∧
    close + risk * 1.618 < close + risk * 2.618 ∧
    (if 0 < risk then (close + risk * 1.618 - close) / risk else 0) <
      (if 0 < risk then (close + risk * 2.618 - close) / risk else 0) := by
  have m1 : (0 : ℚ) < risk * 1.618 := mul_pos hr (by norm_num)
  have m2 : risk * 1.618 < risk * 2.618 :=
    mul_lt_mul_of_pos_left (by norm_num) hr
  refine ⟨by linarith, by linarith, ?_⟩
  rw [if_pos hr, if_pos hr]
  have e1 : close + risk * 1.618 - close = 1.618 * risk := by ring
  have e2 : close + risk * 2.618 - close = 2.618 * risk := by ring
  rw [e1, e2, mul_div_cancel_right₀ _ hr.ne', mul_div_cancel_right₀ _ hr.ne']
  norm_num

theorem calcTargets_sound (close high low : ℚ) (swing : Option ℚ) (a : ℚ)
    (hclose : 0 < close) (ha : 0 < a) :
    (calcTargets close high low (some a) swing).sl < close ∧
    close < (calcTargets close high low (some a) swing).tp1 ∧
    (calcTargets close high low (some a) swing).tp1 <
      (calcTargets close high low (some a) swing).tp2 ∧
    (calcTargets close high low (some a) swing).rr1 <
      (calcTargets close high low (some a) swing).rr2 := by
  unfold calcTargets
  simp only [Option.getD_some]
  by_cases hM : min (close - a * 1.5) (swing.getD (close - a * 1.5)) ≤ 0
  · rw [if_pos hM]
    have hr : 0 < close - close * 0.9 := by linarith
    rw [if_neg (by linarith : ¬close - close * 0.9 ≤ 0)]
    obtain ⟨h1, h2, h3⟩ := tp_rr_block close (close - close * 0.9) hr
    exact ⟨by linarith, h1, h2, h3⟩
  · rw [if_neg hM]
    push_neg at hM
    have hle : min (close - a * 1.5) (swing.getD (close - a * 1.5)) ≤ close - a * 1.5 :=
      min_le_left _ _
    have hr : 0 < close - min (close - a * 1.5) (swing.getD (close - a * 1.5)) := by
      have : 0 < a * 1.5 := by linarith
      linarith
    rw [if_neg (by linarith : ¬close - min (close - a * 1.5)
      (swing.getD (close - a * 1.5)) ≤ 0)]
    obtain ⟨h1, h2, h3⟩ :=
      tp_rr_block close (close - min (close - a * 1.5) (swing.getD (close - a * 1.5))) hr
    exact ⟨by linarith, h1, h2, h3⟩

theorem evalRows_eq_some (sym : String) (curr prev : Row) (ws os : List ℚ)
    (thr : ℤ) (c : Candidate) (h : evalRows sym curr prev ws os thr = some c) :
    MIN_PRICE ≤ curr.close ∧ MIN_VOLUME_AVG ≤ curr.volMA20.getD 0 ∧
    ∃ r, curr.rsi = some r ∧ thr ≤ scoreOf curr prev r ws os ∧
      c = { symbol := sym
            price := curr.close
            rsi := r
            score := scoreOf curr prev r ws os
            sl := (calcTargets curr.close curr.high curr.low curr.atr curr.swingLow10).sl
            tp1 := (calcTargets curr.close curr.high curr.low curr.atr curr.swingLow10).tp1
            tp2 := (calcTargets curr.close curr.high curr.low curr.atr curr.swingLow10).tp2
            rr1 := (calcTargets curr.close curr.high curr.low curr.atr curr.swingLow10).rr1
            rr2 := (calcTargets curr.close curr.high curr.low curr.atr curr.swingLow10).rr2
            reasons := reasonsOf curr prev r ws os } := by
  unfold evalRows at h
  split at h
  · exact absurd h (by simp)
  · next hg =>
    push_neg at hg
    split at h
    · exact absurd h (by simp)
    · next r heq =>
      split at h
      · next ht => exact ⟨hg.1, hg.2, r, heq, ht, (Option.some_inj.mp h).symm⟩
      · exact absurd h (by simp)

/-- C10: the orchestrator skips any instrument whose daily history has
fewer than 60 bars before computing indicators, although
calculate_technical itself accepts 50 - so an instrument with 50 to 59
bars is silently dropped and can never become a Candidate. -/
theorem sixty_bar_gate (sym : String) (bars : List Bar) (bb : BBInputs) (thr : ℤ)
    (h50 : 50 ≤ bars.length) (h60 : bars.length < 60) :
    processTicker sym bars bb thr = none ∧ calculateTechnical bars ≠ none := by
  constructor
  · unfold processTicker
    rw [if_pos h60]
  · unfold calculateTechnical
    rw [if_neg (by omega)]
    simp

/-- Witness for the 60-bar gate: 55 flat bars are enough for
calculate_technical yet produce no candidate. -/
theorem sixty_bar_gate_w :
    processTicker "W" bars55 bbEmpty 6 = none ∧ calculateTechnical bars55 ≠ none :=
  sixty_bar_gate "W" bars55 bbEmpty 6 (by decide) (by decide)

/-- C2: the liquidity gate is a hard veto evaluated before any scoring
rule - rows whose close is below MIN_PRICE or whose 20-bar average volume
(read as 0 when NaN) is below MIN_VOLUME_AVG produce no candidate
whatever the other cells hold; every candidate of a batch's candidate
list has price at least MIN_PRICE; and any instrument that yields a
candidate had a last close of at least MIN_PRICE and a 20-bar average
volume of at least MIN_VOLUME_AVG. -/
theorem liquidity_gate_veto :
    (∀ (sym : String) (curr prev : Row) (ws os : List ℚ) (thr : ℤ),
      curr.close < MIN_PRICE ∨ curr.volMA20.getD 0 < MIN_VOLUME_AVG →
      evalRows sym curr prev ws os thr = none) ∧
    (∀ (items : List InstrumentInput) (regime : Regime) (c : Candidate),
      c ∈ processBatch items regime → MIN_PRICE ≤ c.price) ∧
    (∀ (sym : String) (bars : List Bar) (bb : BBInputs) (thr : ℤ) (c : Candidate),
      processTicker sym bars bb thr = some c → ∃ f, calculateTechnical bars = some f ∧
        MIN_PRICE ≤ (currRowOf f bb).close ∧
        MIN_VOLUME_AVG ≤ (currRowOf f bb).volMA20.getD 0) := by
  refine ⟨?_, ?_, ?_⟩
  · intro sym curr prev ws os thr hg
    unfold evalRows
    rw [if_pos hg]
  · intro items regime c hc
    rcases List.mem_filterMap.mp hc with ⟨it, _, hit⟩
    unfold processTicker at hit
    by_cases h60 : it.bars.length < 60
    · rw [if_pos h60] at hit
      exact absurd hit (by simp)
    · rw [if_neg h60] at hit
      rcases hf : calculateTechnical it.bars with _ | f
      · rw [hf] at hit
        exact absurd hit (by simp)
      · rw [hf] at hit
        obtain ⟨hp, _, r, _, _, rfl⟩ := evalRows_eq_some _ _ _ _ _ _ _ hit
        exact hp
  · intro sym bars bb thr c hc
    unfold processTicker at hc
    by_cases h60 : bars.length < 60
    · rw [if_pos h60] at hc
      exact absurd hc (by simp)
    · rw [if_neg h60] at hc
      rcases hf : calculateTechnical bars with _ | f
      · rw [hf] at hc
        exact absurd hc (by simp)
      · rw [hf] at hc
        obtain ⟨hp, hv, _⟩ := evalRows_eq_some _ _ _ _ _ _ _ hc
        exact ⟨f, rfl, hp, hv⟩

/-- Witness for the liquidity gate: a row with close 50 and ample volume
is rejected outright. -/
theorem liquidity_gate_veto_w :
    evalRows "CHEAP" rowCheap row0 [] [] 0 = none :=
  liquidity_gate_veto.1 "CHEAP" rowCheap row0 [] [] 0
    (Or.inl (by norm_num [rowCheap, row0, MIN_PRICE]))

/-- C4: whenever a candidate is produced from a current row whose ATR is
defined and positive, its targets satisfy stopLoss < close < TP1 < TP2
and RR1 < RR2. -/
theorem risk_target_invariants (sym : String) (curr prev : Row) (ws os : List ℚ)
    (thr : ℤ) (c : Candidate) (a : ℚ)
    (hc : evalRows sym curr prev ws os thr = some c)
    (ha : curr.atr = some a) (hpos : 0 < a) :
    c.sl < c.price ∧ c.price < c.tp1 ∧ c.tp1 < c.tp2 ∧ c.rr1 < c.rr2 := by
  obtain ⟨hp, _, r, _, _, rfl⟩ := evalRows_eq_some _ _ _ _ _ _ _ hc
  have hclose : 0 < curr.close :=
    lt_of_lt_of_le (by norm_num [MIN_PRICE]) hp
  dsimp only
  rw [ha]
  exact calcTargets_sound curr.close curr.high curr.low curr.swingLow10 a hclose hpos

/-- Witness for the target invariants, at the concrete example candidate
cEx4 (close 200, ATR 10, score 8, threshold 5). -/
theorem risk_target_invariants_w :
    cEx4.sl < cEx4.price ∧ cEx4.price < cEx4.tp1 ∧ cEx4.tp1 < cEx4.tp2 ∧
      cEx4.rr1 < cEx4.rr2 :=
  risk_target_invariants "EX4" currEx4 prevEx4 [] [] 5 cEx4 10
    (by norm_num [evalRows, scoreOf, reasonsOf, calcTargets, rsiRule, macdRule,
      volumeRule, sma200Rule, bbRule, stochRule, obvRule, ema20Rule,
      MIN_PRICE, MIN_VOLUME_AVG, row0, currEx4, prevEx4, cEx4])
    (by norm_num [currEx4, row0]) (by norm_num)

/-- C3: the weekly-confirmation bonus runs strictly after the threshold
filter - every candidate evalRows produces already meets the threshold;
the merge maps each candidate either to itself or to itself with +2 and
exactly one appended tag; it never removes a candidate (length preserved,
each input's image is in the output) and never resurrects one. -/
theorem weekly_bonus_after_threshold :
    (∀ (w : String → Bool) (cs : List Candidate),
      (weeklyMerge w cs).length = cs.length) ∧
    (∀ (w : String → Bool) (cs : List Candidate) (c : Candidate),
      c ∈ weeklyMerge w cs → ∃ c0 ∈ cs,
        (w c0.symbol = true ∧ c.score = c0.score + 2 ∧
          c.reasons = c0.reasons ++ [weeklyTag]) ∨
        (w c0.symbol = false ∧ c = c0)) ∧
    (∀ (w : String → Bool) (cs : List Candidate) (c0 : Candidate),
      c0 ∈ cs → applyWeeklyBonus w c0 ∈ weeklyMerge w cs) ∧
    (∀ (sym : String) (curr prev : Row) (ws os : List ℚ) (thr : ℤ) (c : Candidate),
      evalRows sym curr prev ws os thr = some c → thr ≤ c.score) := by
  refine ⟨?_, ?_, ?_, ?_⟩
  · intro w cs
    simp [weeklyMerge]
  · intro w cs c hc
    rcases List.mem_map.mp hc with ⟨c0, hc0, rfl⟩
    refine ⟨c0, hc0, ?_⟩
    unfold applyWeeklyBonus
    by_cases hw : w c0.symbol = true
    · rw [if_pos hw]
      exact Or.inl ⟨hw, rfl, rfl⟩
    · rw [if_neg hw]
      exact Or.inr ⟨by simpa using hw, rfl⟩
  · intro w cs c0 h0
    unfold weeklyMerge
    exact List.mem_map.mpr ⟨c0, h0, rfl⟩
  · intro sym curr prev ws os thr c hc
    obtain ⟨_, _, r, _, ht, rfl⟩ := evalRows_eq_some _ _ _ _ _ _ _ hc
    exact ht

/-- Witness for the weekly bonus claim: on the singleton candidate list
[cEx3] the merge keeps exactly one candidate, contains its +2 image, and
cEx3 came out of evalRows having met the NEUTRAL threshold 6. -/
theorem weekly_bonus_after_threshold_w :
    (weeklyMerge (fun _ => true) [cEx3]).length = 1 ∧
    applyWeeklyBonus (fun _ => true) cEx3 ∈ weeklyMerge (fun _ => true) [cEx3] ∧
    (6 : ℤ) ≤ cEx3.score :=
  ⟨weekly_bonus_after_threshold.1 (fun _ => true) [cEx3],
   weekly_bonus_after_threshold.2.2.1 (fun _ => true) [cEx3] cEx3 (by simp),
   weekly_bonus_after_threshold.2.2.2 "EX3" currEx3 prevEx3 [] [] 6 cEx3
     (by norm_num [evalRows, scoreOf, reasonsOf, calcTargets, rsiRule, macdRule,
       volumeRule, sma200Rule, bbRule, stochRule, obvRule, ema20Rule,
       MIN_PRICE, MIN_VOLUME_AVG, row0, currEx3, prevEx3, cEx3])⟩

/-- C5 counterexample: at Histogram[t-1] = -1 and Histogram[t] = 0 the
claimed firing condition Histogram[t-1] < 0 ≤ Histogram[t] holds, yet the
source tests macd_h_now > 0 strictly, so the golden cross does not fire:
the rule awards the +1 strengthening point instead of +3. -/
theorem macd_goldencross_cex :
    ((-1 : ℚ) < 0 ∧ (0 : ℚ) ≤ 0) ∧ (macdRule (some 0) (some (-1))).1 = 1 := by
  refine ⟨⟨by norm_num, le_refl 0⟩, ?_⟩
  norm_num [macdRule]

/-- C5 amended: the golden cross (+3) fires iff Histogram[t-1] < 0 and
0 < Histogram[t] (a strictly positive current histogram); the +1
strengthening fires iff the golden-cross condition fails, the histogram
rose, and the current histogram exceeds -0.5; the rule returns a single
value 3, 1 or 0, so the two never fire for the same pair of bars. -/
theorem macd_rule_exact (n p : ℚ) :
    ((macdRule (some n) (some p)).1 = 3 ↔ p < 0 ∧ 0 < n) ∧
    ((macdRule (some n) (some p)).1 = 1 ↔
      ¬(p < 0 ∧ 0 < n) ∧ p < n ∧ -0.5 < n) ∧
    ((macdRule (some n) (some p)).1 = 3 ∨ (macdRule (some n) (some p)).1 = 1 ∨
      (macdRule (some n) (some p)).1 = 0) := by
  unfold macdRule
  dsimp only
  split_ifs with h1 h2 <;> simp_all <;> first | tauto |
    (intro hp; by_contra hn; push_neg at hn; have := h1 hn; linarith)

/-- Witness for the amended MACD rule: the cross from -1 to 1 fires. -/
theorem macd_rule_exact_w : (macdRule (some 1) (some (-1))).1 = 3 :=
  (macd_rule_exact 1 (-1)).1.mpr (by norm_num)

/-- C6 counterexample: with OBV column [0, 10, 0, 0, 0, 10] (current OBV
10, current OBV-MA5 4), the claim's conditions hold - OBV 10 > OBV-MA5 4
and the OBV value 5 bars before the current bar (index 0, value 0) is
below the current OBV 10 - yet the source compares the first of the last
FIVE cells (index 1, value 10, i.e. 4 bars before), which is not below
10, so no point is awarded. -/
theorem obv_rule_cex :
    ((4 : ℚ) < 10 ∧ [(0 : ℚ), 10, 0, 0, 0, 10].getD 0 99 = 0 ∧ (0 : ℚ) < 10) ∧
    (obvRule (some 10) (some 4) [0, 10, 0, 0, 0, 10]).1 = 0 := by
  refine ⟨⟨by norm_num, rfl, by norm_num⟩, ?_⟩
  norm_num [obvRule]

/-- C6 amended: the OBV rule awards +1 iff current OBV > current OBV-MA5
and, among the last five OBV cells, the first (the value 4 bars before
the current bar, not 5) is strictly below the last (the current value). -/
theorem obv_rule_exact (o m : ℚ) (s : List ℚ) (h5 : 5 ≤ s.length) :
    (obvRule (some o) (some m) s).1 = 1 ↔
      m < o ∧ (s.drop (s.length - 5)).headD 0 < (s.drop (s.length - 5)).getLastD 0 := by
  unfold obvRule
  dsimp only
  have hlen : 5 ≤ (s.drop (s.length - 5)).length := by
    rw [List.length_drop]
    omega
  by_cases hm : m < o
  · rw [if_pos hm, if_pos hlen]
    by_cases hc : (s.drop (s.length - 5)).headD 0 < (s.drop (s.length - 5)).getLastD 0
    · rw [if_pos hc]
      exact iff_of_true rfl ⟨hm, hc⟩
    · rw [if_neg hc]
      exact iff_of_false (by norm_num) (fun h => hc h.2)
  · rw [if_neg hm]
    exact iff_of_false (by norm_num) (fun h => hm h.1)

/-- Witness for the amended OBV rule: on [0, 0, 0, 0, 0, 10] with OBV 10
and OBV-MA5 4 the rule fires. -/
theorem obv_rule_exact_w : (obvRule (some 10) (some 4) [0, 0, 0, 0, 0, 10]).1 = 1 :=
  (obv_rule_exact 10 4 [0, 0, 0, 0, 0, 10] (by norm_num)).mpr
    ⟨by norm_num, by norm_num⟩

/-- C7: an undefined RSI on the current row rejects the instrument
outright (no candidate), while an undefined cell required by any other
rule zeroes only that rule's contribution - each rule returns 0 when one
of its cells is NaN, and the total score is the sum of the eight
independent rule contributions, so the other rules are unaffected. -/
theorem undefined_cell_policy :
    (∀ (sym : String) (curr prev : Row) (ws os : List ℚ) (thr : ℤ),
      curr.rsi = none → evalRows sym curr prev ws os thr = none) ∧
    (∀ n p, n = none ∨ p = none → (macdRule n p).1 = 0) ∧
    (∀ v, (volumeRule none v).1 = 0) ∧
    (∀ cl, (sma200Rule none cl).1 = 0) ∧
    (∀ pl w pw mid cc pc ws, (bbRule none pl w pw mid cc pc ws).1 = 0) ∧
    (∀ cl w pw mid cc pc ws, (bbRule cl none w pw mid cc pc ws).1 = 0) ∧
    (∀ k1 d1 k0 d0, k1 = none ∨ d1 = none ∨ k0 = none ∨ d0 = none →
      (stochRule k1 d1 k0 d0).1 = 0) ∧
    (∀ ov mv s, ov = none ∨ mv = none → (obvRule ov mv s).1 = 0) ∧
    (∀ cl, (ema20Rule none cl).1 = 0) ∧
    (∀ (curr prev : Row) (r : ℚ) (ws os : List ℚ),
      scoreOf curr prev r ws os =
        (rsiRule r).1 + (macdRule curr.macdH prev.macdH).1 +
        (volumeRule curr.volMA5 curr.volume).1 +
        (sma200Rule curr.sma200 curr.close).1 +
        (bbRule curr.bbLower prev.bbLower curr.bbWidth prev.bbWidth curr.bbMid
          curr.close prev.close ws).1 +
        (stochRule curr.stochK curr.stochD prev.stochK prev.stochD).1 +
        (obvRule curr.obv curr.obvMA5 os).1 +
        (ema20Rule curr.ema20 curr.close).1) := by
  refine ⟨?_, ?_, ?_, ?_, ?_, ?_, ?_, ?_, ?_, ?_⟩
  · intro sym curr prev ws os thr hrsi
    unfold evalRows
    split
    · rfl
    · rw [hrsi]
  · intro n p h
    rcases h with rfl | rfl
    · rfl
    · cases n <;> rfl
  · intro v
    rfl
  · intro cl
    rfl
  · intro pl w pw mid cc pc ws
    rfl
  · intro cl w pw mid cc pc ws
    cases cl <;> rfl
  · intro k1 d1 k0 d0 h
    rcases h with rfl | rfl | rfl | rfl
    · rfl
    · cases k1 <;> rfl
    · cases k1 <;> cases d1 <;> rfl
    · cases k1 <;> cases d1 <;> cases k0 <;> rfl
  · intro ov mv s h
    rcases h with rfl | rfl
    · rfl
    · cases ov <;> rfl
  · intro cl
    rfl
  · intro curr prev r ws os
    rfl

/-- Witness for the undefined-cell policy: a liquid row with a NaN RSI
cell yields no candidate even at threshold 0. -/
theorem undefined_cell_policy_w :
    evalRows "NORSI" rowNoRsi row0 [] [] 0 = none :=
  undefined_cell_policy.1 "NORSI" rowNoRsi row0 [] [] 0 rfl

end Screener
